import Mathlib

/-!
Verification of the task-cli core (src/task_cli/cli.py): the `TaskManager`
class (in-memory registry plus JSON persistence) and its five operations
`add`, `update`, `delete`, `set_status`, `list_tasks`, together with the
load/save layer `_load` / `save` / `_open_data` / `_write_data`.

Modelling conventions:
* `dt.datetime` values are modelled as natural numbers (an instant on a
  discrete timeline); `datetime.isoformat` is modelled as an injective
  textual encoding `tsEncode` whose exact inverse `tsDecode` models
  `datetime.fromisoformat` (which recovers the datetime exactly, and raises
  `ValueError` on text that is not a valid encoding).
* Each operation that calls `dt.datetime.now()` takes the current clock
  reading as an explicit `now : Nat` argument.
* The parsed JSON document is modelled structurally by `JsonVal`
  (numbers restricted to the naturals the program writes); the backing file
  holds either a document or unparsable text (`FileData.malformed`).
* `TaskStatus(str, Enum)` members are strings; the `status` field of a task
  is therefore modelled as a `String` (after `_load` it can hold an
  arbitrary string, since `_load` stores `task["status"]` unvalidated).
-/

namespace TaskCli

/-! ## Timestamps: the isoformat codec -/

/-- The character for a decimal digit `d < 10`. -/
def digitChar (d : Nat) : Char := Char.ofNat (48 + d)

/-- Decode a character back to a decimal digit; `none` on non-digits. -/
def charDigit? (c : Char) : Option Nat :=
  if 48 ≤ c.toNat ∧ c.toNat ≤ 57 then some (c.toNat - 48) else none

/-- Little-endian decimal digits of `n`; `fuel` bounds the recursion depth
(called with `fuel = n`, which always suffices). -/
def tsDigits : Nat → Nat → List Nat
  | 0, _ => []
  | fuel + 1, n => if n = 0 then [] else n % 10 :: tsDigits fuel (n / 10)

/-- Value of a little-endian decimal digit list. -/
def undigits : List Nat → Nat
  | [] => 0
  | d :: ds => d + 10 * undigits ds

/-- Model of `datetime.isoformat`: an injective textual encoding of the
instant (most-significant digit first). -/
def tsEncode (t : Nat) : String :=
  String.mk (((tsDigits t t).map digitChar).reverse)

/-- Decode a big-endian list of digit characters; `none` if any character is
not a digit. -/
def decodeDigits : List Char → Option (List Nat)
  | [] => some []
  | c :: cs =>
    match charDigit? c with
    | none => none
    | some d =>
      match decodeDigits cs with
      | none => none
      | some ds => some (d :: ds)

/-- Model of `datetime.fromisoformat`: exact inverse of `tsEncode`;
`none` models the `ValueError` raised on non-conforming text. -/
def tsDecode (s : String) : Option Nat :=
  match decodeDigits s.data.reverse with
  | some ds => some (undigits ds)
  | none => none

/-! ## The persisted JSON document -/

/-- A parsed JSON document, restricted to the shapes the program reads and
writes (numbers are the naturals the program produces; objects are the
key/value lists of a parsed Python dict, whose keys are unique). -/
inductive JsonVal where
  | num (n : Nat)
  | str (s : String)
  | arr (xs : List JsonVal)
  | obj (fields : List (String × JsonVal))

/-- Python exceptions that can arise inside `TaskManager._load`. -/
inductive PyError where
  | jsonDecodeError
  | keyError
  | valueError
  | attributeError
  | typeError
deriving DecidableEq, Repr

/-- Lookup in a parsed dict's field list. -/
def jsonGet? : List (String × JsonVal) → String → Option JsonVal
  | [], _ => none
  | (k', v) :: rest, k => if k' = k then some v else jsonGet? rest k

/-- `data.get(k, default)`: defaulting dict lookup; on a non-dict the
attribute access raises `AttributeError`. -/
def pyDictGet (v : JsonVal) (k : String) (default : JsonVal) :
    Except PyError JsonVal :=
  match v with
  | .obj fs =>
    match jsonGet? fs k with
    | some x => .ok x
    | none => .ok default
  | _ => .error .attributeError

/-- `task[k]`: dict subscription; `KeyError` when the key is absent,
`TypeError` when the value subscripted is not a dict. -/
def pySubscript (v : JsonVal) (k : String) : Except PyError JsonVal :=
  match v with
  | .obj fs =>
    match jsonGet? fs k with
    | some x => .ok x
    | none => .error .keyError
  | _ => .error .typeError

/-- Project a JSON number. The Python code performs no such check (it would
store a value of the wrong dynamic type as-is); files whose present fields
are off the persisted format's types are outside the modelled domain and
mapped to an uncaught `TypeError`. No claim concerns such files. -/
def asNum : JsonVal → Except PyError Nat
  | .num n => .ok n
  | _ => .error .typeError

/-- Project a JSON string (same modelling note as `asNum`). -/
def asStr : JsonVal → Except PyError String
  | .str s => .ok s
  | _ => .error .typeError

/-- Project a JSON array: models iterating `data.get("tasks", [])`
(iterating a non-list either raises `TypeError` immediately or produces
elements that fail the subscriptions below; see the `asNum` note). -/
def asArr : JsonVal → Except PyError (List JsonVal)
  | .arr xs => .ok xs
  | _ => .error .typeError

/-- `fromisoformat(v)`: `TypeError` on a non-string argument, `ValueError`
on text that does not encode an instant. -/
def fromIso (v : JsonVal) : Except PyError Nat :=
  match v with
  | .str s =>
    match tsDecode s with
    | some t => .ok t
    | none => .error .valueError
  | _ => .error .typeError

/-! ## Data model: Task, TaskManager state -/

/-- `Task` dataclass. `status` is a `String` because `TaskStatus(str, Enum)`
members are strings and `_load` stores the raw `task["status"]` text
(cli.py line 74) without converting it to the enum. -/
structure Task where
  id : Nat
  description : String
  status : String
  created_at : Nat
  updated_at : Nat
deriving DecidableEq, Repr

/-- The three `TaskStatus` values; `isTaskStatus s` holds exactly when `s`
is the value of a `TaskStatus` member, modelling
`isinstance(status, TaskStatus)` for the value carried by the argument. -/
def isTaskStatus (s : String) : Bool :=
  s == "todo" || s == "in-progress" || s == "done"

/-- `Task.to_dict` (cli.py lines 33-40): `json.dump` serializes the
str-backed enum member as its string value, and the datetimes as their
isoformat text. -/
def Task.to_dict (t : Task) : JsonVal :=
  .obj [("id", .num t.id),
        ("description", .str t.description),
        ("status", .str t.status),
        ("created_at", .str (tsEncode t.created_at)),
        ("updated_at", .str (tsEncode t.updated_at))]

/-- The in-memory state of `TaskManager`: the id counter and the ordered
task list. -/
structure TaskManager where
  last_id : Nat
  tasks : List Task
deriving DecidableEq, Repr

/-- The document `TaskManager.save` writes (cli.py lines 85-90). -/
def saveJson (m : TaskManager) : JsonVal :=
  .obj [("last_id", .num m.last_id),
        ("tasks", .arr (m.tasks.map Task.to_dict))]

/-! ## The backing file and `_load` -/

/-- Content of the backing file: either text that is not valid JSON, or a
JSON document. -/
inductive FileData where
  | malformed (raw : String)
  | json (v : JsonVal)

/-- `_open_data` (cli.py lines 50-53): `json.load` raises
`JSONDecodeError` on unparsable text. -/
def openData : FileData → Except PyError JsonVal
  | .malformed _ => .error .jsonDecodeError
  | .json v => .ok v

/-- One element of the list comprehension in `_load` (cli.py lines 70-79):
field subscriptions in the source's left-to-right evaluation order, with
`fromisoformat` applied to the two timestamp strings. The status text is
stored as-is: no validation against `TaskStatus`. -/
def loadTask (v : JsonVal) : Except PyError Task :=
  match pySubscript v "id" with
  | .error e => .error e
  | .ok idv =>
    match asNum idv with
    | .error e => .error e
    | .ok i =>
      match pySubscript v "description" with
      | .error e => .error e
      | .ok dv =>
        match asStr dv with
        | .error e => .error e
        | .ok d =>
          match pySubscript v "status" with
          | .error e => .error e
          | .ok sv =>
            match asStr sv with
            | .error e => .error e
            | .ok st =>
              match pySubscript v "created_at" with
              | .error e => .error e
              | .ok cv =>
                match fromIso cv with
                | .error e => .error e
                | .ok c =>
                  match pySubscript v "updated_at" with
                  | .error e => .error e
                  | .ok uv =>
                    match fromIso uv with
                    | .error e => .error e
                    | .ok u => .ok ⟨i, d, st, c, u⟩

/-- The list comprehension: elements left to right, first exception wins. -/
def loadTasks : List JsonVal → Except PyError (List Task)
  | [] => .ok []
  | v :: rest =>
    match loadTask v with
    | .error e => .error e
    | .ok t =>
      match loadTasks rest with
      | .error e => .error e
      | .ok ts => .ok (t :: ts)

/-- Body of the `try` block in `_load` (cli.py lines 68-79) after
`_open_data`: read `last_id` with default 0, then the tasks with
default `[]`. -/
def loadBody (data : JsonVal) : Except PyError (Nat × List Task) :=
  match pyDictGet data "last_id" (.num 0) with
  | .error e => .error e
  | .ok lidv =>
    match asNum lidv with
    | .error e => .error e
    | .ok lid =>
      match pyDictGet data "tasks" (.arr []) with
      | .error e => .error e
      | .ok tasksv =>
        match asArr tasksv with
        | .error e => .error e
        | .ok items =>
          match loadTasks items with
          | .error e => .error e
          | .ok ts => .ok (lid, ts)

/-- The empty-state document `{"last_id": 0, "tasks": []}` written on
first run and on corruption reset. -/
def emptyDoc : JsonVal :=
  .obj [("last_id", .num 0), ("tasks", .arr [])]

/-- The exception classes named by the `except` clause of `_load`
(cli.py line 80): `json.JSONDecodeError` and `KeyError`. -/
def caughtByLoad : PyError → Bool
  | .jsonDecodeError => true
  | .keyError => true
  | _ => false

/-- `TaskManager._load` (cli.py lines 59-83) over the backing file
(`none` = file does not exist). Returns the loaded manager state and the
backing file content afterwards; an uncaught exception (`ValueError`,
`TypeError`, `AttributeError`) propagates to the caller. -/
def loadFile : Option FileData → Except PyError (TaskManager × Option FileData)
  | none => .ok (⟨0, []⟩, some (.json emptyDoc))
  | some fd =>
    match openData fd with
    | .error e =>
      if caughtByLoad e then .ok (⟨0, []⟩, some (.json emptyDoc))
      else .error e
    | .ok data =>
      match loadBody data with
      | .ok (lid, ts) => .ok (⟨lid, ts⟩, some fd)
      | .error e =>
        if caughtByLoad e then .ok (⟨0, []⟩, some (.json emptyDoc))
        else .error e

/-! ## The registry operations

Each mutating method is modelled at the level of the pair
(manager state, backing file): the combined state a process invocation
starts from and leaves behind. `save` (always called on the success path,
never on an error path) is the file write `writeSave`. -/

/-- The typed errors of the registry: the three distinct `ValueError`
messages raised by `_get_task` and `set_status`. -/
inductive TMError where
  | emptyCollection
  | notFound (id : Nat)
  | invalidStatus
deriving DecidableEq, Repr

/-- `_get_task` (cli.py lines 99-107): empty-collection check first, then a
linear scan returning the first task whose id matches. -/
def TaskManager.getTask (m : TaskManager) (i : Nat) : Except TMError Task :=
  if m.tasks.isEmpty then .error .emptyCollection
  else
    match m.tasks.find? (fun t => t.id == i) with
    | some t => .ok t
    | none => .error (.notFound i)

/-- Combined process state: the in-memory manager and the backing file. -/
structure Sys where
  mgr : TaskManager
  file : Option FileData

/-- The file content after `save` (cli.py lines 85-90 via `_write_data`). -/
def writeSave (m : TaskManager) : Option FileData :=
  some (.json (saveJson m))

/-- Replace the first task whose id matches: the in-place mutation of the
object `_get_task` found (the first id match) as seen by the list. -/
def replaceFirst : List Task → Nat → Task → List Task
  | [], _, _ => []
  | t :: rest, i, t' =>
    if t.id == i then t' :: rest else t :: replaceFirst rest i t'

/-- `list.remove(task)`: removes the first element equal to `task`
(dataclass equality is field equality). `delete` only calls it with an
element of the list, so the empty case is unreachable there. -/
def pyRemove : List Task → Task → List Task
  | [], _ => []
  | x :: rest, t => if x = t then rest else x :: pyRemove rest t

/-- `add` (cli.py lines 92-97): increment `last_id`, create the task with
that id, status `"todo"` and both timestamps set to the clock reading
(the two `datetime.now()` defaults evaluated at construction), append,
save, return the new task. -/
def Sys.add (s : Sys) (description : String) (now : Nat) : Sys × Task :=
  let last_id := s.mgr.last_id + 1
  let task : Task :=
    { id := last_id, description := description, status := "todo",
      created_at := now, updated_at := now }
  let mgr' : TaskManager := { last_id := last_id, tasks := s.mgr.tasks ++ [task] }
  ({ mgr := mgr', file := writeSave mgr' }, task)

/-- `update` (cli.py lines 109-114): look up, replace the description
(no emptiness or other validation), refresh `updated_at`, save, return.
On a lookup failure the exception propagates before any mutation or save. -/
def Sys.update (s : Sys) (i : Nat) (description : String) (now : Nat) :
    Except TMError (Sys × Task) :=
  match s.mgr.getTask i with
  | .error e => .error e
  | .ok task =>
    let task' := { task with description := description, updated_at := now }
    let mgr' : TaskManager :=
      { last_id := s.mgr.last_id, tasks := replaceFirst s.mgr.tasks i task' }
    .ok ({ mgr := mgr', file := writeSave mgr' }, task')

/-- `delete` (cli.py lines 116-120): look up, `list.remove` the found task,
save, return the removed task. `last_id` is not touched. -/
def Sys.delete (s : Sys) (i : Nat) : Except TMError (Sys × Task) :=
  match s.mgr.getTask i with
  | .error e => .error e
  | .ok task =>
    let mgr' : TaskManager :=
      { last_id := s.mgr.last_id, tasks := pyRemove s.mgr.tasks task }
    .ok ({ mgr := mgr', file := writeSave mgr' }, task)

/-- `set_status` (cli.py lines 122-129): the `isinstance(status, TaskStatus)`
check comes first (so an invalid value is rejected even on an empty
registry, before `_get_task` runs); then look up, assign the status, save,
return. Note the body assigns only `task.status`: `updated_at` is NOT
refreshed (contrast `update`, line 112). -/
def Sys.set_status (s : Sys) (i : Nat) (status : String) :
    Except TMError (Sys × Task) :=
  if !isTaskStatus status then .error .invalidStatus
  else
    match s.mgr.getTask i with
    | .error e => .error e
    | .ok task =>
      let task' := { task with status := status }
      let mgr' : TaskManager :=
        { last_id := s.mgr.last_id, tasks := replaceFirst s.mgr.tasks i task' }
      .ok ({ mgr := mgr', file := writeSave mgr' }, task')

/-- The rendering of one task in `list_tasks` (cli.py line 133). -/
def fmtTask (t : Task) : String :=
  toString t.id ++ ": " ++ t.description ++ " - " ++ t.status

/-- `list_tasks` (cli.py lines 131-135): a pure read of `self.tasks`; the
method body contains no assignment and no `save()` call, so the combined
state is returned unchanged next to the rendered lines. -/
def Sys.list_tasks (s : Sys) : Sys × List String :=
  (s, s.mgr.tasks.map fmtTask)

/-! ## Event traces: sequences of operations across process restarts -/

/-- One CLI-level event: a registry operation, or a process restart
(construct a fresh `TaskManager`, which runs `_load` on the backing
file). -/
inductive Ev where
  | add (description : String) (now : Nat)
  | update (i : Nat) (description : String) (now : Nat)
  | delete (i : Nat)
  | setStatus (i : Nat) (status : String)
  | restart

/-- Number of `add` events contributed by one event. -/
def evAdds : Ev → Nat
  | .add _ _ => 1
  | .update _ _ _ => 0
  | .delete _ => 0
  | .setStatus _ _ => 0
  | .restart => 0

/-- Number of `add` events in a trace. -/
def countAdds : List Ev → Nat
  | [] => 0
  | e :: rest => evAdds e + countAdds rest

/-- Ids returned by `add` when running one event from state `s`. -/
def evIds (s : Sys) : Ev → List Nat
  | .add _ _ => [s.mgr.last_id + 1]
  | .update _ _ _ => []
  | .delete _ => []
  | .setStatus _ _ => []
  | .restart => []

/-- Run one event. A failing operation raises before any mutation and
before any save, so the backing file is untouched and the manager state is
unchanged; a restart replaces the manager by the loaded state (an uncaught
load exception kills the process before any write, leaving the state as
it was). The returned list collects the ids handed out by `add`. -/
def stepEv (s : Sys) : Ev → Sys × List Nat
  | .add d n =>
    let (s', t) := s.add d n
    (s', [t.id])
  | .update i d n =>
    match s.update i d n with
    | .ok (s', _) => (s', [])
    | .error _ => (s, [])
  | .delete i =>
    match s.delete i with
    | .ok (s', _) => (s', [])
    | .error _ => (s, [])
  | .setStatus i st =>
    match s.set_status i st with
    | .ok (s', _) => (s', [])
    | .error _ => (s, [])
  | .restart =>
    match loadFile s.file with
    | .ok (m', f') => ({ mgr := m', file := f' }, [])
    | .error _ => (s, [])

/-- Run a trace, collecting all ids handed out by `add`. -/
def runEvs : Sys → List Ev → Sys × List Nat
  | s, [] => (s, [])
  | s, e :: rest =>
    let (s', ids) := stepEv s e
    let (s'', ids') := runEvs s' rest
    (s'', ids ++ ids')

/-- The state of a fresh installation: the empty registry just after the
first `_load` created the backing file (cli.py lines 60-65). -/
def sys0 : Sys :=
  { mgr := ⟨0, []⟩, file := some (.json emptyDoc) }

/-- Invariant of every state reachable through the operations: the backing
file holds exactly the save of the in-memory state, and every stored
status is one of the three `TaskStatus` values. -/
def InvS (s : Sys) : Prop :=
  s.file = writeSave s.mgr ∧ ∀ t ∈ s.mgr.tasks, isTaskStatus t.status = true

/-! ## Concrete documents used to exercise `_load` -/

/-- A well-formed task entry, as `save` would write it. -/
def goodTaskJson : JsonVal :=
  .obj [("id", .num 1), ("description", .str "a"), ("status", .str "todo"),
        ("created_at", .str "7"), ("updated_at", .str "7")]

/-- A document missing the required top-level field `last_id` but holding
one well-formed task. -/
def missingLastIdDoc : JsonVal :=
  .obj [("tasks", .arr [goodTaskJson])]

/-- A task entry missing the required fields after `id`. -/
def truncatedTaskJson : JsonVal :=
  .obj [("id", .num 1)]

/-- A document whose task entry is missing required fields. -/
def truncatedDoc : JsonVal :=
  .obj [("last_id", .num 2), ("tasks", .arr [truncatedTaskJson])]

/-- A task entry whose status text is not a `TaskStatus` value. -/
def bogusStatusTaskJson : JsonVal :=
  .obj [("id", .num 1), ("description", .str "x"), ("status", .str "bogus"),
        ("created_at", .str "7"), ("updated_at", .str "7")]

/-- A document holding a task with unrecognized status text. -/
def bogusStatusDoc : JsonVal :=
  .obj [("last_id", .num 1), ("tasks", .arr [bogusStatusTaskJson])]

/-! ## Theorems -/

theorem charDigit?_digitChar {d : Nat} (h : d < 10) :
    charDigit? (digitChar d) = some d := by
  interval_cases d <;> rfl

theorem tsDigits_lt {fuel n d : Nat} (h : d ∈ tsDigits fuel n) : d < 10 := by
  induction fuel generalizing n with
  | zero => simp [tsDigits] at h
  | succ fuel ih =>
    rw [tsDigits] at h
    by_cases hn : n = 0
    · simp [hn] at h
    · simp [hn] at h
      rcases h with h | h
      · omega
      · exact ih h

theorem undigits_tsDigits {fuel n : Nat} (h : n ≤ fuel) :
    undigits (tsDigits fuel n) = n := by
  induction fuel generalizing n with
  | zero =>
    have hn : n = 0 := by omega
    subst hn; rfl
  | succ fuel ih =>
    rw [tsDigits]
    by_cases hn : n = 0
    · simp [hn, undigits]
    · simp only [hn, if_false, undigits]
      rw [ih (by omega)]
      omega

theorem decodeDigits_map {ds : List Nat} (h : ∀ d ∈ ds, d < 10) :
    decodeDigits (ds.map digitChar) = some ds := by
  induction ds with
  | nil => rfl
  | cons d ds ih =>
    rw [List.map_cons, decodeDigits, charDigit?_digitChar (h d (by simp)),
      ih (fun x hx => h x (by simp [hx]))]

/-- The codec round-trips: the encoding preserves the instant exactly,
like `fromisoformat (isoformat t)`. -/
theorem tsDecode_tsEncode (t : Nat) : tsDecode (tsEncode t) = some t := by
  rw [tsEncode, tsDecode]
  show (match decodeDigits (((tsDigits t t).map digitChar).reverse.reverse) with
    | some ds => some (undigits ds)
    | none => none) = some t
  rw [List.reverse_reverse, decodeDigits_map (fun d hd => tsDigits_lt hd)]
  show some (undigits (tsDigits t t)) = some t
  rw [undigits_tsDigits (Nat.le_refl t)]

theorem loadTask_to_dict (t : Task) : loadTask (Task.to_dict t) = .ok t := by
  show (match fromIso (JsonVal.str (tsEncode t.created_at)) with
    | Except.error e => (Except.error e : Except PyError Task)
    | Except.ok c =>
      match fromIso (JsonVal.str (tsEncode t.updated_at)) with
      | Except.error e => Except.error e
      | Except.ok u =>
        Except.ok (⟨t.id, t.description, t.status, c, u⟩ : Task)) = Except.ok t
  rw [fromIso, fromIso, tsDecode_tsEncode, tsDecode_tsEncode]

theorem loadTasks_map (ts : List Task) :
    loadTasks (ts.map Task.to_dict) = .ok ts := by
  induction ts with
  | nil => rfl
  | cons t rest ih => rw [List.map_cons, loadTasks, loadTask_to_dict, ih]

theorem loadBody_saveJson (m : TaskManager) :
    loadBody (saveJson m) = .ok (m.last_id, m.tasks) := by
  show (match loadTasks (m.tasks.map Task.to_dict) with
    | Except.error e => (Except.error e : Except PyError (Nat × List Task))
    | Except.ok ts => Except.ok (m.last_id, ts)) = Except.ok (m.last_id, m.tasks)
  rw [loadTasks_map]

/-- Loading the document `save` wrote recovers the saved state exactly and
leaves the file as it was. -/
theorem loadFile_writeSave (m : TaskManager) :
    loadFile (writeSave m) = .ok (m, writeSave m) := by
  show (match loadBody (saveJson m) with
    | Except.ok (lid, ts) =>
      (Except.ok ((⟨lid, ts⟩ : TaskManager), writeSave m) :
        Except PyError (TaskManager × Option FileData))
    | Except.error e =>
      if caughtByLoad e then
        Except.ok ((⟨0, []⟩ : TaskManager), some (FileData.json emptyDoc))
      else Except.error e) = Except.ok (m, writeSave m)
  rw [loadBody_saveJson]

/-! ### Lookup and list helpers -/

theorem getTask_ok_mem {m : TaskManager} {i : Nat} {t : Task}
    (h : m.getTask i = .ok t) : t ∈ m.tasks := by
  rw [TaskManager.getTask] at h
  split at h
  · exact absurd h (by simp)
  · rcases hf : m.tasks.find? (fun u => u.id == i) with _ | u <;> rw [hf] at h
    · exact absurd h (by simp)
    · cases h
      exact List.mem_of_find?_eq_some hf

theorem getTask_ok_id {m : TaskManager} {i : Nat} {t : Task}
    (h : m.getTask i = .ok t) : t.id = i := by
  rw [TaskManager.getTask] at h
  split at h
  · exact absurd h (by simp)
  · rcases hf : m.tasks.find? (fun u => u.id == i) with _ | u <;> rw [hf] at h
    · exact absurd h (by simp)
    · cases h
      have := List.find?_some hf
      simpa using this

theorem getTask_empty {m : TaskManager} (i : Nat) (h : m.tasks = []) :
    m.getTask i = .error .emptyCollection := by
  rw [TaskManager.getTask, h]
  rfl

theorem getTask_not_found {m : TaskManager} {i : Nat}
    (hne : m.tasks ≠ []) (h : ∀ u ∈ m.tasks, u.id ≠ i) :
    m.getTask i = .error (.notFound i) := by
  have hemp : m.tasks.isEmpty = false := by
    rcases hm : m.tasks with _ | ⟨a, l⟩
    · exact absurd hm hne
    · rfl
  have hf : m.tasks.find? (fun u => u.id == i) = none := by
    rw [List.find?_eq_none]
    intro u hu
    simpa using h u hu
  rw [TaskManager.getTask, hemp, hf]
  simp

theorem mem_replaceFirst {ts : List Task} {i : Nat} {t' u : Task}
    (h : u ∈ replaceFirst ts i t') : u ∈ ts ∨ u = t' := by
  induction ts with
  | nil => simp [replaceFirst] at h
  | cons x rest ih =>
    rw [replaceFirst] at h
    by_cases hx : x.id == i
    · rw [if_pos hx] at h
      rcases List.mem_cons.mp h with h | h
      · right; exact h
      · left; exact List.mem_cons_of_mem _ h
    · rw [if_neg hx] at h
      rcases List.mem_cons.mp h with h | h
      · left; exact h ▸ List.mem_cons_self _ _
      · rcases ih h with h | h
        · left; exact List.mem_cons_of_mem _ h
        · right; exact h

theorem mem_pyRemove {ts : List Task} {t u : Task}
    (h : u ∈ pyRemove ts t) : u ∈ ts := by
  induction ts with
  | nil => simp [pyRemove] at h
  | cons x rest ih =>
    rw [pyRemove] at h
    by_cases hx : x = t
    · rw [if_pos hx] at h
      exact List.mem_cons_of_mem _ h
    · rw [if_neg hx] at h
      rcases List.mem_cons.mp h with h | h
      · exact h ▸ List.mem_cons_self _ _
      · exact List.mem_cons_of_mem _ (ih h)

theorem find?_id_append (pre post : List Task) (t : Task) (i : Nat)
    (hid : t.id = i) (hpre : ∀ u ∈ pre, u.id ≠ i) :
    (pre ++ t :: post).find? (fun u => u.id == i) = some t := by
  induction pre with
  | nil => simp [List.find?, hid]
  | cons x rest ih =>
    rw [List.cons_append, List.find?]
    have hx : (x.id == i) = false := by
      simpa using hpre x (List.mem_cons_self _ _)
    rw [hx]
    exact ih (fun u hu => hpre u (List.mem_cons_of_mem _ hu))

theorem pyRemove_append (pre post : List Task) (t : Task)
    (hpre : ∀ u ∈ pre, u ≠ t) :
    pyRemove (pre ++ t :: post) t = pre ++ post := by
  induction pre with
  | nil => simp [pyRemove]
  | cons x rest ih =>
    rw [List.cons_append, pyRemove,
      if_neg (hpre x (List.mem_cons_self _ _)), ih
        (fun u hu => hpre u (List.mem_cons_of_mem _ hu)),
      List.cons_append]

/-! ### Invariant preservation along traces -/

theorem stepEv_spec (s : Sys) (e : Ev) (h : InvS s) :
    InvS (stepEv s e).1
    ∧ (stepEv s e).1.mgr.last_id = s.mgr.last_id + evAdds e
    ∧ (stepEv s e).2 = evIds s e := by
  cases e with
  | add d n =>
    refine ⟨⟨rfl, ?_⟩, rfl, rfl⟩
    intro t ht
    rcases List.mem_append.mp ht with ht | ht
    · exact h.2 t ht
    · rw [List.mem_singleton] at ht
      rw [ht]
      rfl
  | update i d n =>
    rcases hg : s.mgr.getTask i with e₀ | t₀
    · simp only [stepEv, Sys.update, hg]
      exact ⟨h, rfl, rfl⟩
    · simp only [stepEv, Sys.update, hg]
      refine ⟨⟨rfl, ?_⟩, rfl, rfl⟩
      intro u hu
      rcases mem_replaceFirst hu with hu | hu
      · exact h.2 u hu
      · rw [hu]
        exact h.2 t₀ (getTask_ok_mem hg)
  | delete i =>
    rcases hg : s.mgr.getTask i with e₀ | t₀
    · simp only [stepEv, Sys.delete, hg]
      exact ⟨h, rfl, rfl⟩
    · simp only [stepEv, Sys.delete, hg]
      refine ⟨⟨rfl, ?_⟩, rfl, rfl⟩
      intro u hu
      exact h.2 u (mem_pyRemove hu)
  | setStatus i st =>
    rcases hst : isTaskStatus st with _ | _
    · simp only [stepEv, Sys.set_status, hst, Bool.not_false, if_pos]
      exact ⟨h, rfl, rfl⟩
    · rcases hg : s.mgr.getTask i with e₀ | t₀
      · simp only [stepEv, Sys.set_status, hst, Bool.not_true, if_neg, hg]
        exact ⟨h, rfl, rfl⟩
      · simp only [stepEv, Sys.set_status, hst, Bool.not_true, if_neg, hg]
        refine ⟨⟨rfl, ?_⟩, rfl, rfl⟩
        intro u hu
        rcases mem_replaceFirst hu with hu | hu
        · exact h.2 u hu
        · rw [hu]
          exact hst
  | restart =>
    simp only [stepEv, h.1, loadFile_writeSave]
    exact ⟨⟨rfl, h.2⟩, rfl, rfl⟩

theorem runEvs_spec (evs : List Ev) (s : Sys) (h : InvS s) :
    InvS (runEvs s evs).1
    ∧ (runEvs s evs).1.mgr.last_id = s.mgr.last_id + countAdds evs
    ∧ (runEvs s evs).2 = List.range' (s.mgr.last_id + 1) (countAdds evs) := by
  induction evs generalizing s with
  | nil => exact ⟨h, rfl, rfl⟩
  | cons e rest ih =>
    obtain ⟨h₁, hlast, hids⟩ := stepEv_spec s e h
    obtain ⟨h₂, hlast', hids'⟩ := ih (stepEv s e).1 h₁
    refine ⟨?_, ?_, ?_⟩
    · show InvS (runEvs (stepEv s e).1 rest).1
      exact h₂
    · show (runEvs (stepEv s e).1 rest).1.mgr.last_id
        = s.mgr.last_id + countAdds (e :: rest)
      rw [hlast', hlast, countAdds, Nat.add_assoc]
    · show (stepEv s e).2 ++ (runEvs (stepEv s e).1 rest).2
        = List.range' (s.mgr.last_id + 1) (countAdds (e :: rest))
      rw [hids, hids', hlast, countAdds]
      cases e with
      | add d n =>
        show [s.mgr.last_id + 1]
            ++ List.range' (s.mgr.last_id + 1 + 1) (countAdds rest)
          = List.range' (s.mgr.last_id + 1) (1 + countAdds rest)
        rw [Nat.add_comm 1 (countAdds rest)]
        rfl
      | update i d n =>
        show List.range' (s.mgr.last_id + 0 + 1) (countAdds rest)
          = List.range' (s.mgr.last_id + 1) (0 + countAdds rest)
        rw [Nat.add_zero, Nat.zero_add]
      | delete i =>
        show List.range' (s.mgr.last_id + 0 + 1) (countAdds rest)
          = List.range' (s.mgr.last_id + 1) (0 + countAdds rest)
        rw [Nat.add_zero, Nat.zero_add]
      | setStatus i st =>
        show List.range' (s.mgr.last_id + 0 + 1) (countAdds rest)
          = List.range' (s.mgr.last_id + 1) (0 + countAdds rest)
        rw [Nat.add_zero, Nat.zero_add]
      | restart =>
        show List.range' (s.mgr.last_id + 0 + 1) (countAdds rest)
          = List.range' (s.mgr.last_id + 1) (0 + countAdds rest)
        rw [Nat.add_zero, Nat.zero_add]

theorem InvS_sys0 : InvS sys0 := by
  constructor
  · rfl
  · intro t ht
    simp [sys0] at ht

/-! ### The claims -/

/-- Claim C1: starting from the empty registry (`last_id = 0`), over any
sequence of operations — adds, updates, deletes, status changes, and
process restarts that reconstruct the registry by loading the backing
file — the ids returned by `add` are exactly `1, 2, 3, ...`: strictly
increasing starting at 1 with no repeats, even across restarts and after
deletions, because `add` always allocates `last_id + 1` and stores that id
back into `last_id`. -/
theorem c1_add_ids_strictly_increasing (evs : List Ev) :
    (runEvs sys0 evs).2 = List.range' 1 (countAdds evs)
    ∧ List.Pairwise (· < ·) (runEvs sys0 evs).2
    ∧ ∀ (s : Sys) (d : String) (n : Nat),
        (Sys.add s d n).2.id = s.mgr.last_id + 1
        ∧ (Sys.add s d n).1.mgr.last_id = s.mgr.last_id + 1 := by
  obtain ⟨-, -, hids⟩ := runEvs_spec evs sys0 InvS_sys0
  refine ⟨hids, ?_, fun s d n => ⟨rfl, rfl⟩⟩
  rw [hids]
  exact List.pairwise_lt_range' 1 (countAdds evs)

/-- Claim C2 counterexample: the backing file `{"tasks": [<one well-formed
task>]}` is missing the required top-level field `last_id`, yet `_load`
neither resets the file nor returns the empty state: it returns the one
parsed task with `last_id = 0` and leaves the file as it was. -/
theorem c2_load_missing_field_counterexample :
    jsonGet? [("tasks", JsonVal.arr [goodTaskJson])] "last_id" = none
    ∧ loadFile (some (.json missingLastIdDoc))
        = .ok (⟨0, [⟨1, "a", "todo", 7, 7⟩]⟩, some (.json missingLastIdDoc))
    ∧ (⟨0, [⟨1, "a", "todo", 7, 7⟩]⟩ : TaskManager) ≠ (⟨0, []⟩ : TaskManager)
    ∧ missingLastIdDoc ≠ emptyDoc := by
  refine ⟨rfl, rfl, by decide, ?_⟩
  intro h
  simp [missingLastIdDoc, emptyDoc] at h

/-- Claim C2 amended: `_load` resets the backing file to
`{"last_id": 0, "tasks": []}` and returns the empty state exactly when
reading raises one of the two caught exceptions — the file fails to parse
as JSON, or a task entry is missing a required field (`KeyError`). Missing
top-level fields are instead silently defaulted (`last_id` to 0, `tasks`
to `[]`) by `data.get`, with no error, no reset, and — when tasks are
present but `last_id` is missing — a non-empty result. -/
theorem c2_load_reset_on_caught_errors :
    (∀ raw : String,
      loadFile (some (.malformed raw)) = .ok (⟨0, []⟩, some (.json emptyDoc)))
    ∧ (∀ v : JsonVal, loadBody v = .error .keyError →
      loadFile (some (.json v)) = .ok (⟨0, []⟩, some (.json emptyDoc)))
    ∧ (∀ (v : JsonVal) (lid : Nat) (ts : List Task),
      loadBody v = .ok (lid, ts) →
      loadFile (some (.json v)) = .ok (⟨lid, ts⟩, some (.json v))) := by
  refine ⟨fun raw => rfl, fun v h => ?_, fun v lid ts h => ?_⟩
  · show (match loadBody v with
      | Except.ok (lid, ts) =>
        (Except.ok ((⟨lid, ts⟩ : TaskManager), some (FileData.json v)) :
          Except PyError (TaskManager × Option FileData))
      | Except.error e =>
        if caughtByLoad e then
          Except.ok ((⟨0, []⟩ : TaskManager), some (FileData.json emptyDoc))
        else Except.error e)
      = Except.ok ((⟨0, []⟩ : TaskManager), some (FileData.json emptyDoc))
    rw [h]
    rfl
  · show (match loadBody v with
      | Except.ok (lid, ts) =>
        (Except.ok ((⟨lid, ts⟩ : TaskManager), some (FileData.json v)) :
          Except PyError (TaskManager × Option FileData))
      | Except.error e =>
        if caughtByLoad e then
          Except.ok ((⟨0, []⟩ : TaskManager), some (FileData.json emptyDoc))
        else Except.error e)
      = Except.ok ((⟨lid, ts⟩ : TaskManager), some (FileData.json v))
    rw [h]

theorem c2_load_reset_on_caught_errors_witness :
    loadBody truncatedDoc = .error .keyError
    ∧ loadFile (some (.json truncatedDoc))
        = .ok (⟨0, []⟩, some (.json emptyDoc)) :=
  ⟨rfl, c2_load_reset_on_caught_errors.2.1 truncatedDoc rfl⟩

/-- Claim C3 (code bug): in the spec's own scenario — `add` then
`set_status` — the returned task has the new status but `updated_at` still
equals `created_at` (both are the creation instant, here 5): the body of
`set_status` (cli.py lines 122-129) assigns only `task.status` and never
refreshes `updated_at`, unlike `update` (line 112), contradicting the
spec's "`updatedAt` ... refreshed on every mutation (description or status
change)" and its `updatedAt > createdAt` scenario. -/
theorem c3_set_status_does_not_refresh_updated_at :
    Except.map (fun p => (p.2.status, p.2.created_at, p.2.updated_at))
        ((Sys.add sys0 "buy milk" 5).1.set_status 1 "in-progress")
      = .ok ("in-progress", 5, 5)
    ∧ ¬ (5 > 5) :=
  ⟨rfl, by decide⟩

/-- Claim C4: for every registry state, `save` then `load` round-trips:
loading the document `save` wrote recovers the state exactly — same
`last_id`, and the same tasks field for field (ids, descriptions, statuses,
and both timestamps, which the isoformat text preserves to full
precision) — and leaves the backing file unchanged. -/
theorem c4_save_load_roundtrip (m : TaskManager) :
    loadFile (writeSave m) = .ok (m, writeSave m)
    ∧ loadBody (saveJson m) = .ok (m.last_id, m.tasks) :=
  ⟨loadFile_writeSave m, loadBody_saveJson m⟩

/-- Claim C5: `update`, `delete` and `set_status` (with a valid status)
fail with the empty-collection error when the registry holds zero tasks,
and with the not-found error when it is non-empty but no task has the
requested id; in either case the exception propagates before any mutation
and before any `save`, so the combined state (manager and backing file) is
unchanged. -/
theorem c5_lookup_failures (s : Sys) (i : Nat) (d : String) (n : Nat)
    (st : String) (hst : isTaskStatus st = true) :
    (s.mgr.tasks = [] →
      Sys.update s i d n = .error .emptyCollection
      ∧ Sys.delete s i = .error .emptyCollection
      ∧ Sys.set_status s i st = .error .emptyCollection)
    ∧ ((s.mgr.tasks ≠ [] ∧ ∀ u ∈ s.mgr.tasks, u.id ≠ i) →
      Sys.update s i d n = .error (.notFound i)
      ∧ Sys.delete s i = .error (.notFound i)
      ∧ Sys.set_status s i st = .error (.notFound i))
    ∧ (∀ e : TMError, s.mgr.getTask i = .error e →
      stepEv s (.update i d n) = (s, [])
      ∧ stepEv s (.delete i) = (s, [])
      ∧ stepEv s (.setStatus i st) = (s, [])) := by
  refine ⟨fun hemp => ?_, fun ⟨hne, hnf⟩ => ?_, fun e he => ?_⟩
  · have hg := getTask_empty (m := s.mgr) i hemp
    exact ⟨by simp [Sys.update, hg], by simp [Sys.delete, hg],
      by simp [Sys.set_status, hg, hst]⟩
  · have hg := getTask_not_found hne hnf
    exact ⟨by simp [Sys.update, hg], by simp [Sys.delete, hg],
      by simp [Sys.set_status, hg, hst]⟩
  · exact ⟨by simp [stepEv, Sys.update, he],
      by simp [stepEv, Sys.delete, he],
      by simp [stepEv, Sys.set_status, he, hst]⟩

theorem c5_lookup_failures_witness :
    isTaskStatus "done" = true
    ∧ Sys.update ⟨⟨1, [⟨1, "a", "todo", 0, 0⟩]⟩,
        writeSave ⟨1, [⟨1, "a", "todo", 0, 0⟩]⟩⟩ 2 "x" 3
      = .error (.notFound 2)
    ∧ Sys.update ⟨⟨0, []⟩, writeSave ⟨0, []⟩⟩ 2 "x" 3
      = .error .emptyCollection := by
  refine ⟨by decide, ?_, ?_⟩
  · exact ((c5_lookup_failures ⟨⟨1, [⟨1, "a", "todo", 0, 0⟩]⟩,
      writeSave ⟨1, [⟨1, "a", "todo", 0, 0⟩]⟩⟩ 2 "x" 3 "done"
      (by decide)).2.1 ⟨by decide, by decide⟩).1
  · exact ((c5_lookup_failures ⟨⟨0, []⟩, writeSave ⟨0, []⟩⟩ 2 "x" 3 "done"
      (by decide)).1 rfl).1

/-- Claim C6: `set_status` with a status value outside the three
`TaskStatus` values fails with the invalid-status error before any lookup
runs — in particular on an empty registry it reports invalid-status, not
empty-collection — and leaves the manager state and the backing file
untouched. -/
theorem c6_invalid_status_rejected_first (s : Sys) (i : Nat) (st : String)
    (h : isTaskStatus st = false) :
    Sys.set_status s i st = .error .invalidStatus
    ∧ stepEv s (.setStatus i st) = (s, []) := by
  have h1 : Sys.set_status s i st = .error .invalidStatus := by
    rw [Sys.set_status, h]
    rfl
  exact ⟨h1, by simp [stepEv, h1]⟩

theorem c6_invalid_status_rejected_first_witness :
    isTaskStatus "bogus" = false
    ∧ (Sys.set_status sys0 1 "bogus" = .error .invalidStatus
      ∧ stepEv sys0 (.setStatus 1 "bogus") = (sys0, [])) :=
  ⟨by decide, c6_invalid_status_rejected_first sys0 1 "bogus" (by decide)⟩

/-- Claim C7: `delete` on an id held by a task (the first match in the
ordered collection) removes exactly that task, returns it, leaves
`last_id` and every other task untouched, and persists the result; a
subsequent `add` hands out `last_id + 1`, which never reuses the deleted
id (the ids of stored tasks never exceed `last_id` in reachable
states). -/
theorem c7_delete_frame (s : Sys) (i : Nat) (pre post : List Task) (t : Task)
    (hsplit : s.mgr.tasks = pre ++ t :: post)
    (hid : t.id = i)
    (hpre : ∀ u ∈ pre, u.id ≠ i) :
    Sys.delete s i =
      .ok (⟨⟨s.mgr.last_id, pre ++ post⟩,
            writeSave ⟨s.mgr.last_id, pre ++ post⟩⟩, t)
    ∧ (∀ (d : String) (n : Nat),
        (Sys.add ⟨⟨s.mgr.last_id, pre ++ post⟩,
            writeSave ⟨s.mgr.last_id, pre ++ post⟩⟩ d n).2.id
          = s.mgr.last_id + 1)
    ∧ (i ≤ s.mgr.last_id → s.mgr.last_id + 1 ≠ i) := by
  have hemp : (pre ++ t :: post).isEmpty = false := by
    cases pre <;> rfl
  have hfind := find?_id_append pre post t i hid hpre
  have hg : s.mgr.getTask i = .ok t := by
    rw [TaskManager.getTask, hsplit, hemp, hfind]
    rfl
  have hrem : pyRemove s.mgr.tasks t = pre ++ post := by
    rw [hsplit]
    refine pyRemove_append pre post t (fun u hu hut => ?_)
    exact hpre u hu (by rw [hut, hid])
  refine ⟨?_, fun d n => rfl, fun hle => by omega⟩
  simp only [Sys.delete, hg, hrem]

theorem c7_delete_frame_witness :
    Sys.delete ⟨⟨2, [⟨1, "a", "todo", 0, 0⟩, ⟨2, "b", "todo", 1, 1⟩]⟩,
        writeSave ⟨2, [⟨1, "a", "todo", 0, 0⟩, ⟨2, "b", "todo", 1, 1⟩]⟩⟩ 2
      = .ok (⟨⟨2, [⟨1, "a", "todo", 0, 0⟩]⟩,
              writeSave ⟨2, [⟨1, "a", "todo", 0, 0⟩]⟩⟩, ⟨2, "b", "todo", 1, 1⟩)
    ∧ (2 ≤ 2 → 2 + 1 ≠ 2) := by
  have h := c7_delete_frame ⟨⟨2, [⟨1, "a", "todo", 0, 0⟩, ⟨2, "b", "todo", 1, 1⟩]⟩,
      writeSave ⟨2, [⟨1, "a", "todo", 0, 0⟩, ⟨2, "b", "todo", 1, 1⟩]⟩⟩ 2
      [⟨1, "a", "todo", 0, 0⟩] [] ⟨2, "b", "todo", 1, 1⟩ rfl rfl (by decide)
  exact ⟨h.1, h.2.2⟩

/-- Claim C8 counterexample: a backing file whose task entry carries the
unrecognized status text "bogus" loads without any error: `_load` stores
the raw text straight into the status field (cli.py line 74), so the
loaded state holds a task whose status is outside the three `TaskStatus`
values — it does not fail with the invalid-status error. -/
theorem c8_load_stores_unvalidated_status :
    loadFile (some (.json bogusStatusDoc))
      = .ok (⟨1, [⟨1, "x", "bogus", 7, 7⟩]⟩, some (.json bogusStatusDoc))
    ∧ isTaskStatus "bogus" = false :=
  ⟨rfl, by decide⟩

/-- Claim C8 amended: across the five registry operations the status field
is a closed set — every state reachable from the empty registry through
adds, updates, deletes, status changes and restarts has all task statuses
among the three `TaskStatus` values, and `set_status` rejects any other
text with the invalid-status error — but `_load` itself performs no status
validation, so a hand-edited backing file can place arbitrary text in the
field (see the counterexample). -/
theorem c8_statuses_closed_under_operations (evs : List Ev) :
    (∀ t ∈ (runEvs sys0 evs).1.mgr.tasks, isTaskStatus t.status = true)
    ∧ ∀ (s : Sys) (i : Nat) (st : String), isTaskStatus st = false →
        Sys.set_status s i st = .error .invalidStatus := by
  refine ⟨(runEvs_spec evs sys0 InvS_sys0).1.2, fun s i st h => ?_⟩
  rw [Sys.set_status, h]
  rfl

theorem c8_statuses_closed_under_operations_witness :
    isTaskStatus (Task.status ⟨1, "a", "done", 3, 3⟩) = true :=
  (c8_statuses_closed_under_operations [.add "a" 3, .setStatus 1 "done"]).1
    ⟨1, "a", "done", 3, 3⟩ (by decide)

/-- Claim C9: `list_tasks` is read-only: it returns the combined state
(manager and backing file) unchanged — no task field is mutated, `last_id`
and the collection are untouched, and no file write happens — and its
result has exactly one rendered entry per task, in current collection
order. -/
theorem c9_list_readonly (s : Sys) :
    (Sys.list_tasks s).1 = s
    ∧ (Sys.list_tasks s).2 = s.mgr.tasks.map fmtTask
    ∧ (Sys.list_tasks s).2.length = s.mgr.tasks.length
    ∧ ∀ j : Nat, (Sys.list_tasks s).2[j]? = (s.mgr.tasks[j]?).map fmtTask := by
  refine ⟨rfl, rfl, by simp [Sys.list_tasks], fun j => by simp [Sys.list_tasks]⟩

/-- Claim C10: `update` on an existing id succeeds for every description
string, the empty string included: no non-emptiness (or any other)
validation is performed on the new text — it is stored as-is, `updated_at`
is refreshed to the clock reading, the result is persisted, and the
updated task is returned. -/
theorem c10_update_accepts_any_description (s : Sys) (i : Nat) (d : String)
    (n : Nat) (t : Task) (hget : s.mgr.getTask i = .ok t) :
    Sys.update s i d n =
      .ok (⟨⟨s.mgr.last_id,
              replaceFirst s.mgr.tasks i ⟨t.id, d, t.status, t.created_at, n⟩⟩,
            writeSave ⟨s.mgr.last_id,
              replaceFirst s.mgr.tasks i ⟨t.id, d, t.status, t.created_at, n⟩⟩⟩,
          ⟨t.id, d, t.status, t.created_at, n⟩) := by
  simp only [Sys.update, hget]

theorem c10_update_accepts_any_description_witness :
    TaskManager.getTask ⟨1, [⟨1, "a", "todo", 0, 0⟩]⟩ 1 = .ok ⟨1, "a", "todo", 0, 0⟩
    ∧ Sys.update ⟨⟨1, [⟨1, "a", "todo", 0, 0⟩]⟩,
        writeSave ⟨1, [⟨1, "a", "todo", 0, 0⟩]⟩⟩ 1 "" 4
      = .ok (⟨⟨1, [⟨1, "", "todo", 0, 4⟩]⟩, writeSave ⟨1, [⟨1, "", "todo", 0, 4⟩]⟩⟩,
          ⟨1, "", "todo", 0, 4⟩) :=
  ⟨rfl,
    c10_update_accepts_any_description ⟨⟨1, [⟨1, "a", "todo", 0, 0⟩]⟩,
      writeSave ⟨1, [⟨1, "a", "todo", 0, 0⟩]⟩⟩ 1 "" 4 ⟨1, "a", "todo", 0, 0⟩
      rfl⟩

end TaskCli
